import Mathlib

/-!
Verification of the Smart-day-planner repository.

Part 1 embeds the fallback document store of `app/db/mongodb.py`
(`FallbackCollection.find_one / insert_one / update_one / find`,
`FallbackStorage._save_data`, and the `save_plan` helper).

Part 2 embeds the background scheduler of `app/tasks/scheduler.py`
(`CustomScheduler.add_job / _run_job / _scheduler_loop`).

Python dictionaries are modelled as association lists with unique,
insertion-ordered keys; `dict.get` on a missing key yields `Value.null`
(Python's `None`), matching the `doc.get(key)` calls in the source.
Real wall-clock readings (`time.time()`, `datetime.now().timestamp()`)
are passed in as explicit numeric parameters, one per scheduler scan or
store operation.
-/

namespace DayPlanner

/-- A JSON-ish scalar stored in a document field.  `null` is Python's `None`. -/
inductive Value where
  | str : String → Value
  | int : Int → Value
  | null : Value
deriving DecidableEq

/-- A document: a Python dict, as an insertion-ordered association list. -/
abbrev Doc := List (String × Value)

/-- `doc.get(key)`: the value at `k`, or `Value.null` when the key is absent,
exactly as Python's `dict.get` returns `None` for a missing key. -/
def dget (d : Doc) (k : String) : Value :=
  match d.find? (fun p => p.fst == k) with
  | some p => p.snd
  | none => Value.null

/-- `key in doc`: Python dict membership. -/
def hasKey (d : Doc) (k : String) : Bool :=
  d.any (fun p => p.fst == k)

/-- `doc[k] = v`: overwrite the existing entry in place, or append a new one
at the end (Python dicts keep insertion order). -/
def dset (d : Doc) (k : String) (v : Value) : Doc :=
  if hasKey d k then d.map (fun p => if p.fst == k then (k, v) else p)
  else d ++ [(k, v)]

/-- `doc.update(other)`: set every key of `other` in `doc`, left to right. -/
def dupdate (d : Doc) (u : Doc) : Doc :=
  u.foldl (fun acc p => dset acc p.fst p.snd) d

/-- The matching loop shared by `find_one`, `find` and `update_one`:
`doc.get(key) != value` on any query key rejects the document.  A missing
key reads as `Value.null`, so a query value of `None` matches absence. -/
def matchesQuery (q : Doc) (d : Doc) : Bool :=
  q.all (fun p => dget d p.fst == p.snd)

/-- State of one `FallbackCollection`: its `self.data` list of documents and
a counter of `save_callback` (durability flush) invocations. -/
structure CollState where
  docs : List Doc
  flushes : Nat
deriving DecidableEq

/-- The `_id` string generated by `insert_one`:
`f"doc_{len(self.data) + 1}_{datetime.now().timestamp()}"`. -/
def genId (n : Nat) (now : Nat) : String :=
  "doc_" ++ toString (n + 1) ++ "_" ++ toString now

/-- The document `insert_one` actually stores: the argument, with a generated
`_id` appended when it lacks one. -/
def prepDoc (st : CollState) (document : Doc) (now : Nat) : Doc :=
  if hasKey document "_id" then document
  else dset document "_id" (Value.str (genId st.docs.length now))

/-- `FallbackCollection.insert_one`: append the (id-completed) document and
trigger the durability flush. -/
def insert_one (st : CollState) (document : Doc) (now : Nat) : CollState :=
  { docs := st.docs ++ [prepDoc st document now], flushes := st.flushes + 1 }

/-- `FallbackCollection.find_one`: first document matching the query
(the source returns `doc.copy()`; in this value model the copy is the
returned value itself — aliasing is studied separately in the heap model). -/
def find_one (st : CollState) (q : Doc) : Option Doc :=
  st.docs.find? (matchesQuery q)

/-- The update argument of `update_one`: either `{"$set": u}` or a plain
dict `u` (the `'$set' in update` branch of the source). -/
inductive UpdateArg where
  | set : Doc → UpdateArg
  | plain : Doc → UpdateArg
deriving DecidableEq

/-- The fields an update applies: `update["$set"]` when present, else
`update` itself. -/
def updFields : UpdateArg → Doc
  | .set u => u
  | .plain u => u

/-- The indexed loop of `update_one`: update the first matching document in
place (apply the update fields, then stamp `updated_at`), or report
`none` when no document matches. -/
def updateFirst (ds : List Doc) (q : Doc) (u : UpdateArg) (ts : String) :
    Option (List Doc) :=
  match ds with
  | [] => none
  | d :: rest =>
      if matchesQuery q d then
        some (dset (dupdate d (updFields u)) "updated_at" (Value.str ts) :: rest)
      else (updateFirst rest q u ts).map (fun rest2 => d :: rest2)

/-- `FallbackCollection.update_one(query, update, upsert)`.  On a match the
first matching document is updated in place and one flush fires.  On no
match with `upsert`, a new document is synthesized from the query merged
with the update fields and inserted (`insert_one` flushes once, and the
trailing `if found or (not found and upsert)` flushes again).  On no match
without `upsert`, nothing happens and the state is returned unchanged. -/
def update_one (st : CollState) (q : Doc) (u : UpdateArg) (upsert : Bool)
    (ts : String) (now : Nat) : CollState :=
  match updateFirst st.docs q u ts with
  | some ds => { docs := ds, flushes := st.flushes + 1 }
  | none =>
      if upsert then
        let newDoc := dupdate q (updFields u)
        let st2 := insert_one st newDoc now
        { st2 with flushes := st2.flushes + 1 }
      else st

/-- `FallbackCollection.find`: with no query, `self.data.copy()` (all
documents); with a query, the matching ones. -/
def find (st : CollState) (q : Option Doc) : List Doc :=
  match q with
  | none => st.docs
  | some q0 => st.docs.filter (matchesQuery q0)

/-! ### Heap model of document aliasing

To reason about `doc.copy()` versus `self.data.copy()` — which documents a
caller receives by reference and which by copy — documents live in an
explicit heap of cells and a collection holds cell references, mirroring
Python object identity.  Mutating a returned document is writing a field
through its reference. -/

/-- The Python heap, restricted to document objects: cell `r` holds
`cells[r]`. -/
structure Heap where
  cells : List Doc
deriving DecidableEq

/-- Dereference: the document in cell `r` (out-of-range reads as empty,
never reached on valid references). -/
def readDoc (h : Heap) (r : Nat) : Doc :=
  (h.cells[r]?).getD []

/-- Allocate a fresh cell holding `d`; its reference is the old heap size. -/
def alloc (h : Heap) (d : Doc) : Heap × Nat :=
  ({ cells := h.cells ++ [d] }, h.cells.length)

/-- `doc[k] = v` performed by a caller on the document object `r`:
an in-place mutation through the reference. -/
def hset (h : Heap) (r : Nat) (k : String) (v : Value) : Heap :=
  { cells := h.cells.set r (dset (readDoc h r) k v) }

/-- The lookup step of `find_one` over a collection of references: the first
referenced document matching the query. -/
def findOneRef (h : Heap) (refs : List Nat) (q : Doc) : Option Nat :=
  refs.find? (fun r => matchesQuery q (readDoc h r))

/-- `FallbackCollection.find_one` in the heap model: locate the first match
and return `doc.copy()` — a freshly allocated cell with the same fields. -/
def findOneH (h : Heap) (refs : List Nat) (q : Doc) : Heap × Option Nat :=
  match findOneRef h refs q with
  | some r =>
      let hr := alloc h (readDoc h r)
      (hr.fst, some hr.snd)
  | none => (h, none)

/-- `FallbackCollection.find(None)`: `return self.data.copy()` — a copy of
the *list* only; the elements are the very same document references. -/
def findAllH (refs : List Nat) : List Nat :=
  refs

/-- `FallbackCollection.find(query)` with a query: each matching document is
returned as `doc.copy()`, a fresh cell. -/
def findQueryH (h : Heap) (refs : List Nat) (q : Doc) : Heap × List Nat :=
  match refs with
  | [] => (h, [])
  | r :: rest =>
      if matchesQuery q (readDoc h r) then
        let hr := alloc h (readDoc h r)
        let tl := findQueryH hr.fst rest q
        (tl.fst, hr.snd :: tl.snd)
      else findQueryH h rest q

/-! ### `FallbackStorage._save_data` and `save_plan`

`_save_data` wraps the JSON file write in `try/except`: a write failure is
logged with `logger.error` and swallowed, so the flush never raises.
`save_plan` runs in fallback mode against the `plans` collection; the I/O
outcome of each flush is driven by an explicit `ioFails` flag. -/

/-- The raw file write inside `_save_data`: fails (raises) exactly when the
I/O layer does. -/
def saveDataRaw (ioFails : Bool) : Except String Unit :=
  if ioFails then Except.error "Could not save fallback storage" else Except.ok ()

/-- `FallbackStorage._save_data`: the `try/except` wrapper around the write.
It returns the list of error-log lines (one when the write failed, none
otherwise) and never propagates the exception. -/
def saveData (ioFails : Bool) : List String :=
  match saveDataRaw ioFails with
  | Except.ok _ => []
  | Except.error e => [e]

/-- Result of `save_plan`: the new `plans` collection state, the boolean the
caller receives, and the error lines logged by the durability flushes. -/
structure SaveResult where
  state : CollState
  result : Bool
  ioErrorLog : List String
deriving DecidableEq

/-- String rendering of `plan_data.get(k, default)` inside the f-string of
the generated plan id. -/
def getStrD (d : Doc) (k : String) (dflt : String) : String :=
  match d.find? (fun p => p.fst == k) with
  | some (_, Value.str s) => s
  | some (_, Value.int n) => toString n
  | some (_, Value.null) => "None"
  | none => dflt

/-- `f"plan_{date}_{location}_{user_id}"` with the defaults of the source. -/
def planId (plan : Doc) : String :=
  "plan_" ++ getStrD plan "date" "unknown" ++ "_" ++
    getStrD plan "location" "unknown" ++ "_" ++ getStrD plan "user_id" "default"

/-- The plan document as prepared by `save_plan` before the upsert: the
`_id` is generated from date, location and user when absent, then
`updated_at` is stamped. -/
def planDoc (planData : Doc) (ts : String) : Doc :=
  dset (if hasKey planData "_id" then planData
        else dset planData "_id" (Value.str (planId planData)))
    "updated_at" (Value.str ts)

/-- `save_plan(plan_data)` in fallback mode: complete the `_id`, stamp
`updated_at`, upsert by `_id`, and return `True`.  Every durability flush
fired by `update_one` runs `_save_data`, whose error log is collected;
no exception escapes, so the `except` branch returning `False` is dead in
fallback mode and the caller always receives `True`. -/
def save_plan (st : CollState) (planData : Doc) (ioFails : Bool) (ts : String)
    (now : Nat) : SaveResult :=
  let st2 := update_one st [("_id", dget (planDoc planData ts) "_id")]
    (UpdateArg.set (planDoc planData ts)) true ts now
  { state := st2
    result := true
    ioErrorLog := (List.range (st2.flushes - st.flushes)).flatMap
      (fun _ => saveData ioFails) }

/-! ## Part 2: the custom scheduler (`app/tasks/scheduler.py`)

Times are integers (a discrete clock); each scheduler scan and each job run
happens at one clock instant `now`, standing for the adjacent `time.time()`
readings of the source.  A job's action is abstracted by whether it raises
(`actFails`); running it yields `Except`, and `_run_job`'s `try/except`
catches the error and turns it into a log line. -/

/-- One entry of `CustomScheduler.tasks` (the `job_info` dict).  `actFails`
abstracts the behaviour of `job_info["func"]`: `true` means every
invocation raises. -/
structure Job where
  id : String
  interval : Int
  last_run : Option Int
  next_run : Int
  enabled : Bool
  actFails : Bool
deriving DecidableEq

/-- Scheduler state: the job list and the loop flag. -/
structure SchedState where
  tasks : List Job
  running : Bool
deriving DecidableEq

/-- The scheduler as constructed by `__init__`. -/
def initSched : SchedState :=
  { tasks := [], running := false }

/-- `CustomScheduler.add_job(func, trigger, seconds, id)`: unconditionally
append a job with `last_run = None`, `next_run = time.time() + seconds`,
`enabled = True`.  The source performs no validation of `seconds`. -/
def add_job (s : SchedState) (seconds : Int) (id : Option String) (now : Int)
    (actFails : Bool) : SchedState :=
  let job : Job :=
    { id := id.getD ("job_" ++ toString s.tasks.length)
      interval := seconds
      last_run := none
      next_run := now + seconds
      enabled := true
      actFails := actFails }
  { s with tasks := s.tasks ++ [job] }

/-- Invoking `job_info["func"]()`: raises exactly when the action fails. -/
def runAction (j : Job) : Except String Unit :=
  if j.actFails then Except.error "boom" else Except.ok ()

/-- Outcome of `_run_job` on one job: its updated `job_info` dict, whether
the action was invoked, and the error line logged when it raised. -/
structure RunOut where
  job : Job
  invoked : Bool
  errLog : Option String
deriving DecidableEq

/-- `CustomScheduler._run_job` at instant `now`: a disabled job returns
untouched; otherwise `last_run = now` and `next_run = now + interval` are
assigned first, then the action runs, and an exception from it is caught
and logged (the assignments are never rolled back). -/
def runJob (now : Int) (j : Job) : RunOut :=
  if j.enabled = false then { job := j, invoked := false, errLog := none }
  else
    let j2 := { j with last_run := some now, next_run := now + j.interval }
    match runAction j2 with
    | Except.ok _ => { job := j2, invoked := true, errLog := none }
    | Except.error e =>
        { job := j2, invoked := true
          errLog := some ("Job " ++ j2.id ++ " failed: " ++ e) }

/-- The due test of `_scheduler_loop`:
`job["enabled"] and current_time >= job["next_run"]`. -/
def isDue (now : Int) (j : Job) : Bool :=
  j.enabled && decide (j.next_run ≤ now)

/-- One scan of `_scheduler_loop` at instant `now`: every due job is run
(the job dicts are mutated in place, so each due entry of `tasks` is
replaced by its `_run_job` update), the outcomes of the batch are
gathered, and the loop flag is untouched — `gather(*,
return_exceptions=True)` plus the catch inside `_run_job` means no job
can abort the scan. -/
def scanStep (s : SchedState) (now : Int) : SchedState × List RunOut :=
  ({ s with tasks := s.tasks.map (fun j => if isDue now j then (runJob now j).job else j) },
   (s.tasks.filter (isDue now)).map (runJob now))

/-! ## Helper lemmas -/

/-- A dict with `k` absent reads `Value.null` at `k`, as Python's `get`. -/
theorem dget_of_hasKey_false {d : Doc} {k : String} (h : hasKey d k = false) :
    dget d k = Value.null := by
  have hnone : d.find? (fun p => p.fst == k) = none := by
    rw [List.find?_eq_none]
    simp only [hasKey, List.any_eq_false] at h
    exact h
  simp [dget, hnone]

/-- The indexed loop of `update_one` reports no match when no stored
document matches the query. -/
theorem updateFirst_eq_none (q : Doc) (u : UpdateArg) (ts : String) :
    ∀ ds : List Doc, (∀ d ∈ ds, matchesQuery q d = false) →
      updateFirst ds q u ts = none
  | [], _ => rfl
  | d :: rest, h => by
      have hd : matchesQuery q d = false := h d (List.mem_cons_self d rest)
      have ih := updateFirst_eq_none q u ts rest
        (fun d2 hd2 => h d2 (List.mem_cons_of_mem d hd2))
      simp [updateFirst, hd, ih]

/-! ## Claims -/

/-- C10: a query mapping a field to `None` matches every document lacking
that field — `doc.get(key)` reads a missing key as `None`, which compares
equal to the query value — so `find_one({k: None})` (and `find`) can
return a document with no field `k`. -/
theorem c10_null_query_matches_missing_field (d : Doc) (k : String) (f : Nat)
    (habs : hasKey d k = false) :
    matchesQuery [(k, Value.null)] d = true ∧
    find_one { docs := [d], flushes := f } [(k, Value.null)] = some d ∧
    find { docs := [d], flushes := f } (some [(k, Value.null)]) = [d] := by
  have hm : matchesQuery [(k, Value.null)] d = true := by
    simp [matchesQuery, dget_of_hasKey_false habs]
  exact ⟨hm, by simp [find_one, List.find?_cons, hm], by simp [find, hm]⟩

/-- C10 witness: the document `{"a": 3}` has no field `"k"`, yet the query
`{"k": None}` matches it and `find_one` returns it. -/
theorem c10_witness :
    matchesQuery [("k", Value.null)] [("a", Value.int 3)] = true ∧
    find_one { docs := [[("a", Value.int 3)]], flushes := 0 } [("k", Value.null)] =
      some [("a", Value.int 3)] ∧
    find { docs := [[("a", Value.int 3)]], flushes := 0 }
      (some [("k", Value.null)]) = [[("a", Value.int 3)]] :=
  c10_null_query_matches_missing_field [("a", Value.int 3)] "k" 0 (by decide)

/-- C6: `update_one(query, update, upsert=False)` with no matching document
is a silent no-op: the state (document list and flush count) is returned
unchanged and no error is signalled — the source returns `None` on every
path, so the caller cannot distinguish this from a successful update. -/
theorem c6_update_one_no_match_noop (st : CollState) (q : Doc) (u : UpdateArg)
    (ts : String) (now : Nat)
    (hnom : ∀ d ∈ st.docs, matchesQuery q d = false) :
    update_one st q u false ts now = st ∧
    (update_one st q u false ts now).docs.length = st.docs.length := by
  have hnone := updateFirst_eq_none q u ts st.docs hnom
  constructor
  · simp [update_one, hnone]
  · simp [update_one, hnone]

/-- C6 witness: updating `{"a": 2}` in a collection whose only document is
`{"a": 1}` with `upsert=False` leaves the state untouched. -/
theorem c6_witness :
    update_one { docs := [[("a", Value.int 1)]], flushes := 3 }
        [("a", Value.int 2)] (UpdateArg.set [("b", Value.int 7)]) false "t" 9 =
      { docs := [[("a", Value.int 1)]], flushes := 3 } ∧
    (update_one { docs := [[("a", Value.int 1)]], flushes := 3 }
        [("a", Value.int 2)] (UpdateArg.set [("b", Value.int 7)]) false "t" 9).docs.length =
      ({ docs := [[("a", Value.int 1)]], flushes := 3 } : CollState).docs.length :=
  c6_update_one_no_match_noop { docs := [[("a", Value.int 1)]], flushes := 3 }
    [("a", Value.int 2)] (UpdateArg.set [("b", Value.int 7)]) "t" 9 (by decide)

/-- C1: `_run_job` on an enabled job assigns `last_run = now` and
`next_run = now + interval` before invoking the action, and the
assignments survive whether the action succeeds or raises (the exception
is caught after them); hence `next_run = last_run + interval` holds for
any job that has just executed. -/
theorem c1_run_job_sets_times_before_action (now : Int) (j : Job)
    (h : j.enabled = true) :
    (runJob now j).job.last_run = some now ∧
    (runJob now j).job.next_run = now + j.interval ∧
    (runJob now j).invoked = true ∧
    ∀ t, (runJob now j).job.last_run = some t →
      (runJob now j).job.next_run = t + j.interval := by
  unfold runJob
  rw [h]
  simp only [runAction]
  cases hf : j.actFails <;> simp

/-- An enabled job with a failing action, as a concrete input for C1. -/
def exFailingJob : Job where
  id := "weather_update"
  interval := 1800
  last_run := none
  next_run := 900
  enabled := true
  actFails := true

/-- C1 witness: the failing job, run at instant 1000 with interval 1800,
still ends with `last_run = 1000`, `next_run = 2800`. -/
theorem c1_witness :
    (runJob 1000 exFailingJob).job.last_run = some 1000 ∧
    (runJob 1000 exFailingJob).job.next_run = 1000 + exFailingJob.interval ∧
    (runJob 1000 exFailingJob).invoked = true ∧
    ∀ t, (runJob 1000 exFailingJob).job.last_run = some t →
      (runJob 1000 exFailingJob).job.next_run = t + exFailingJob.interval :=
  c1_run_job_sets_times_before_action 1000 exFailingJob rfl

/-- C4 counterexample: `add_job` with `seconds = 0` (a non-positive
interval) is not rejected — afterwards the job list consists of a job
whose interval is 0, contradicting the claim that the list contains no
job with that interval. -/
theorem c4_zero_interval_job_registered :
    ((add_job initSched 0 none 100 false).tasks.map Job.interval) = [0] ∧
    ((add_job initSched 0 none 100 false).tasks.any
      (fun j => j.interval == 0)) = true := by
  constructor
  · rfl
  · rfl

/-- C4 amended: `add_job` performs no validation of the interval: every
registration — zero or negative intervals included — takes effect, and
afterwards the job list has grown by exactly the new job, carrying that
interval, `next_run = now + seconds`, and `enabled = True`. -/
theorem c4_add_job_registers_unconditionally (s : SchedState) (seconds : Int)
    (id : Option String) (now : Int) (f : Bool) :
    (add_job s seconds id now f).tasks.length = s.tasks.length + 1 ∧
    ∃ j ∈ (add_job s seconds id now f).tasks,
      j.interval = seconds ∧ j.next_run = now + seconds ∧ j.enabled = true := by
  refine ⟨by simp [add_job], ?_⟩
  exact ⟨_, List.mem_append_right s.tasks (List.mem_singleton_self _), rfl, rfl, rfl⟩

/-- C8 counterexample: a job registered at instant 100 with interval 0 has
`next_run = 100 + 0 = 100` and is already due at the moment of
registration, contradicting "no job is ever due at the moment of
registration". -/
theorem c8_zero_interval_due_at_registration :
    ((add_job initSched 0 none 100 false).tasks.map (fun j => isDue 100 j)) =
      [true] ∧
    ((add_job initSched 0 none 100 false).tasks.map Job.next_run) = [100] := by
  constructor
  · rfl
  · rfl

/-- C8 amended: a job registered at instant `now` starts with
`next_run = now + seconds` and `last_run = None`, and — provided the
interval is positive — it is not due at the registration instant. -/
theorem c8_registration_next_run (s : SchedState) (seconds : Int)
    (id : Option String) (now : Int) (f : Bool) (hpos : 0 < seconds) :
    ∃ j, (add_job s seconds id now f).tasks.drop s.tasks.length = [j] ∧
      j.next_run = now + seconds ∧ j.last_run = none ∧ isDue now j = false := by
  refine ⟨{ id := id.getD ("job_" ++ toString s.tasks.length), interval := seconds,
            last_run := none, next_run := now + seconds, enabled := true,
            actFails := f }, ?_, rfl, rfl, ?_⟩
  · exact List.drop_left s.tasks _
  · simp [isDue]
    omega

/-- C8 witness: registering with interval 300 at instant 50 yields
`next_run = 350` and a job not yet due. -/
theorem c8_witness :
    ∃ j, (add_job initSched 300 none 50 false).tasks.drop initSched.tasks.length =
        [j] ∧
      j.next_run = 50 + (300 : Int) ∧ j.last_run = none ∧ isDue 50 j = false :=
  c8_registration_next_run initSched 300 none 50 false (by decide)

/-- C5: one scan of the scheduler loop runs every due job in the batch
independently: whatever the other jobs in the batch do, each due job at
position `i` ends as its own `_run_job` update — action invoked,
`last_run` stamped — an exception from its action is caught and turned
into an error-log line, and the loop flag survives the scan, so the
polling loop goes on to the next scan. -/
theorem c5_one_failing_job_never_blocks_batch (s : SchedState) (now : Int)
    (i : Nat) (j : Job) (hget : s.tasks[i]? = some j)
    (hdue : isDue now j = true) :
    (scanStep s now).fst.tasks[i]? = some (runJob now j).job ∧
    (runJob now j).job.last_run = some now ∧
    (runJob now j).invoked = true ∧
    (j.actFails = true →
      (runJob now j).errLog = some ("Job " ++ j.id ++ " failed: " ++ "boom")) ∧
    runJob now j ∈ (scanStep s now).snd ∧
    (scanStep s now).fst.running = s.running := by
  have hen : j.enabled = true := by
    have h2 := hdue
    simp only [isDue, Bool.and_eq_true] at h2
    exact h2.1
  refine ⟨?_, ?_, ?_, ?_, ?_, rfl⟩
  · show (s.tasks.map _)[i]? = _
    rw [List.getElem?_map, hget]
    simp [hdue]
  · simp only [runJob, hen]
    cases hf : j.actFails <;> simp [runAction, hf]
  · simp only [runJob, hen]
    cases hf : j.actFails <;> simp [runAction, hf]
  · intro hf
    simp [runJob, hen, runAction, hf]
  · exact List.mem_map_of_mem (runJob now)
      (List.mem_filter.mpr ⟨List.getElem?_mem hget, hdue⟩)

/-- A due job whose action always raises, for the C5 witness batch. -/
def exBadJob : Job where
  id := "data_cleanup"
  interval := 3600
  last_run := none
  next_run := 90
  enabled := true
  actFails := true

/-- A due, healthy job sharing the batch with `exBadJob`. -/
def exGoodJob : Job where
  id := "health_check"
  interval := 300
  last_run := none
  next_run := 100
  enabled := true
  actFails := false

/-- A running scheduler whose batch at instant 100 holds a failing and a
healthy job. -/
def exSched : SchedState where
  tasks := [exBadJob, exGoodJob]
  running := true

/-- C5 witness: at instant 100 both jobs of `exSched` are due; the healthy
job at position 1 executes (action invoked, `last_run = 100`) even though
the job at position 0 raises, and the loop flag stays set. -/
theorem c5_witness :
    (scanStep exSched 100).fst.tasks[1]? = some (runJob 100 exGoodJob).job ∧
    (runJob 100 exGoodJob).job.last_run = some 100 ∧
    (runJob 100 exGoodJob).invoked = true ∧
    (exGoodJob.actFails = true →
      (runJob 100 exGoodJob).errLog =
        some ("Job " ++ exGoodJob.id ++ " failed: " ++ "boom")) ∧
    runJob 100 exGoodJob ∈ (scanStep exSched 100).snd ∧
    (scanStep exSched 100).fst.running = exSched.running :=
  c5_one_failing_job_never_blocks_batch exSched 100 1 exGoodJob rfl rfl

/-- When every stored document before the final one fails the query and the
final one matches, the `update_one` loop updates exactly that final
document in place. -/
theorem updateFirst_append_match (q : Doc) (u : UpdateArg) (ts : String)
    (p : Doc) (hp : matchesQuery q p = true) :
    ∀ ds : List Doc, (∀ d ∈ ds, matchesQuery q d = false) →
      updateFirst (ds ++ [p]) q u ts =
        some (ds ++ [dset (dupdate p (updFields u)) "updated_at" (Value.str ts)])
  | [], _ => by simp [updateFirst, hp]
  | d :: rest, h => by
      have hd : matchesQuery q d = false := h d (List.mem_cons_self d rest)
      have ih := updateFirst_append_match q u ts p hp rest
        (fun d2 hd2 => h d2 (List.mem_cons_of_mem d hd2))
      simp [updateFirst, hd, ih]

/-- `update_one` when the loop finds a match: the matched document is
updated in place and one flush fires. -/
theorem update_one_of_updateFirst_some (st : CollState) (q : Doc)
    (u : UpdateArg) (upsert : Bool) (ts : String) (now : Nat) (ds : List Doc)
    (h : updateFirst st.docs q u ts = some ds) :
    update_one st q u upsert ts now = { docs := ds, flushes := st.flushes + 1 } := by
  simp [update_one, h]

/-- C2 counterexample: on an empty collection, two identical calls of
`update_one({"a": 1}, {"$set": {"a": 2}}, upsert=True)` insert two
documents — the `$set` overwrites the query field, so the upserted
document no longer matches the query and the second call upserts again;
the stored document's `"a"` is 2, not the query's 1, so its fields are
not the union of query and update either. -/
theorem c2_conflicting_set_upserts_twice :
    (update_one (update_one { docs := [], flushes := 0 } [("a", Value.int 1)]
        (UpdateArg.set [("a", Value.int 2)]) true "t" 1) [("a", Value.int 1)]
        (UpdateArg.set [("a", Value.int 2)]) true "t" 2).docs.length = 2 ∧
    dget ((update_one { docs := [], flushes := 0 } [("a", Value.int 1)]
        (UpdateArg.set [("a", Value.int 2)]) true "t" 1).docs.headD [])
      "a" = Value.int 2 := by
  constructor
  · rfl
  · rfl

/-- C2 amended: on a collection with no match for `q`,
`update_one(q, {"$set": u}, upsert=True)` inserts exactly one new
document — `q`'s fields overridden by `u`'s, plus a generated `_id` when
absent — and a second identical call inserts no further document
*provided* the upserted document still matches `q`, i.e. the `$set` does
not overwrite a query field with a different value. -/
theorem c2_upsert_inserts_exactly_once (st : CollState) (q u : Doc)
    (ts ts2 : String) (now now2 : Nat)
    (hnom : ∀ d ∈ st.docs, matchesQuery q d = false)
    (hkeep : matchesQuery q (prepDoc st (dupdate q u) now) = true) :
    (update_one st q (UpdateArg.set u) true ts now).docs =
      st.docs ++ [prepDoc st (dupdate q u) now] ∧
    (update_one (update_one st q (UpdateArg.set u) true ts now) q
        (UpdateArg.set u) true ts2 now2).docs.length = st.docs.length + 1 := by
  have hnone := updateFirst_eq_none q (UpdateArg.set u) ts st.docs hnom
  have hdocs : (update_one st q (UpdateArg.set u) true ts now).docs =
      st.docs ++ [prepDoc st (dupdate q u) now] := by
    simp [update_one, hnone, insert_one, updFields]
  have hsecond : updateFirst (update_one st q (UpdateArg.set u) true ts now).docs
      q (UpdateArg.set u) ts2 =
      some (st.docs ++ [dset (dupdate (prepDoc st (dupdate q u) now)
        (updFields (UpdateArg.set u))) "updated_at" (Value.str ts2)]) := by
    rw [hdocs]
    exact updateFirst_append_match q (UpdateArg.set u) ts2 _ hkeep st.docs hnom
  refine ⟨hdocs, ?_⟩
  rw [update_one_of_updateFirst_some _ _ _ _ _ _ _ hsecond]
  simp

/-- C2 witness: upserting `{"a": 1}` with `{"$set": {"b": 2}}` (no query
field overwritten) inserts one document, and an identical second call
inserts none. -/
theorem c2_witness :
    (update_one { docs := [], flushes := 0 } [("a", Value.int 1)]
        (UpdateArg.set [("b", Value.int 2)]) true "t" 7).docs =
      [] ++ [prepDoc { docs := [], flushes := 0 }
        (dupdate [("a", Value.int 1)] [("b", Value.int 2)]) 7] ∧
    (update_one (update_one { docs := [], flushes := 0 } [("a", Value.int 1)]
        (UpdateArg.set [("b", Value.int 2)]) true "t" 7) [("a", Value.int 1)]
        (UpdateArg.set [("b", Value.int 2)]) true "t" 8).docs.length =
      List.length ([] : List Doc) + 1 :=
  c2_upsert_inserts_exactly_once { docs := [], flushes := 0 }
    [("a", Value.int 1)] [("b", Value.int 2)] "t" "t" 7 8
    (by decide) (by decide)

/-- Setting a key makes it present (`dict` assignment). -/
theorem hasKey_dset_self (d : Doc) (k : String) (v : Value) :
    hasKey (dset d k v) k = true := by
  by_cases hh : hasKey d k = true
  · have hex := hh
    simp only [hasKey, List.any_eq_true] at hex
    obtain ⟨p, hp, hpk⟩ := hex
    rw [dset, if_pos hh]
    simp only [hasKey, List.any_eq_true]
    refine ⟨(k, v), ?_, by simp⟩
    simpa [hpk] using
      List.mem_map_of_mem (fun p => if p.fst == k then (k, v) else p) hp
  · rw [dset, if_neg hh]
    simp only [hasKey, List.any_eq_true]
    exact ⟨(k, v), List.mem_append_right _ (List.mem_singleton_self _), by simp⟩

/-- C7 counterexample: inserting `{"_id": "x", "v": 2}` into a collection
already holding `{"_id": "x", "v": 1}` succeeds (no uniqueness check),
but `find_one({"_id": "x"})` then returns the *old* document, which is
not equal to the inserted one — the round-trip fails. -/
theorem c7_duplicate_id_breaks_roundtrip :
    find_one (insert_one
        { docs := [[("_id", Value.str "x"), ("v", Value.int 1)]], flushes := 0 }
        [("_id", Value.str "x"), ("v", Value.int 2)] 5)
      [("_id", Value.str "x")] =
      some [("_id", Value.str "x"), ("v", Value.int 1)] ∧
    ([("_id", Value.str "x"), ("v", Value.int 1)] : Doc) ≠
      [("_id", Value.str "x"), ("v", Value.int 2)] := by
  constructor
  · rfl
  · decide

/-- C7 amended: `insert_one(d)` stores `d` completed with a generated `_id`
when it lacks one, appends it, and fires one durability flush; *provided*
no document already in the collection carries the stored `_id`, a
subsequent `find_one` on that `_id` returns exactly the stored document. -/
theorem c7_insert_roundtrip_fresh_id (st : CollState) (d : Doc) (now : Nat)
    (hfresh : ∀ d2 ∈ st.docs, dget d2 "_id" ≠ dget (prepDoc st d now) "_id") :
    hasKey (prepDoc st d now) "_id" = true ∧
    (insert_one st d now).docs = st.docs ++ [prepDoc st d now] ∧
    (insert_one st d now).flushes = st.flushes + 1 ∧
    find_one (insert_one st d now) [("_id", dget (prepDoc st d now) "_id")] =
      some (prepDoc st d now) := by
  refine ⟨?_, rfl, rfl, ?_⟩
  · rw [prepDoc]
    by_cases hid : hasKey d "_id" = true
    · rw [if_pos hid]; exact hid
    · rw [if_neg hid]; exact hasKey_dset_self d "_id" _
  · have hnone : st.docs.find?
        (matchesQuery [("_id", dget (prepDoc st d now) "_id")]) = none := by
      rw [List.find?_eq_none]
      intro d2 hd2
      simp [matchesQuery, beq_eq_false_iff_ne.mpr (hfresh d2 hd2)]
    have hself : matchesQuery [("_id", dget (prepDoc st d now) "_id")]
        (prepDoc st d now) = true := by
      simp [matchesQuery]
    rw [find_one]
    show ((st.docs ++ [prepDoc st d now]).find? _) = _
    rw [List.find?_append, hnone]
    simp [List.find?_cons_of_pos, hself]

/-- C7 witness: inserting `{"v": 7}` (no `_id`) into an empty collection
and querying the generated `_id` returns the stored document. -/
theorem c7_witness :
    hasKey (prepDoc { docs := [], flushes := 0 } [("v", Value.int 7)] 3)
      "_id" = true ∧
    (insert_one { docs := [], flushes := 0 } [("v", Value.int 7)] 3).docs =
      [] ++ [prepDoc { docs := [], flushes := 0 } [("v", Value.int 7)] 3] ∧
    (insert_one { docs := [], flushes := 0 } [("v", Value.int 7)] 3).flushes =
      0 + 1 ∧
    find_one (insert_one { docs := [], flushes := 0 } [("v", Value.int 7)] 3)
      [("_id", dget (prepDoc { docs := [], flushes := 0 }
        [("v", Value.int 7)] 3) "_id")] =
      some (prepDoc { docs := [], flushes := 0 } [("v", Value.int 7)] 3) :=
  c7_insert_roundtrip_fresh_id { docs := [], flushes := 0 }
    [("v", Value.int 7)] 3 (by decide)

/-- Allocation leaves every existing cell readable unchanged. -/
theorem readDoc_alloc (h : Heap) (d : Doc) (r : Nat) (hr : r < h.cells.length) :
    readDoc (alloc h d).fst r = readDoc h r := by
  simp [readDoc, alloc, List.getElem?_append_left hr]

/-- Writing a field through one reference leaves every other cell alone. -/
theorem readDoc_hset_ne (h : Heap) (r r2 : Nat) (k : String) (v : Value)
    (hne : r ≠ r2) : readDoc (hset h r k v) r2 = readDoc h r2 := by
  simp [readDoc, hset, List.getElem?_set_ne hne]

/-- `find?` only looks at the predicate's values on the list's elements. -/
theorem find?_congr_mem {α : Type} (l : List α) (p p2 : α → Bool)
    (h : ∀ a ∈ l, p a = p2 a) : l.find? p = l.find? p2 := by
  induction l with
  | nil => rfl
  | cons a t ih =>
      have ha := h a (List.mem_cons_self a t)
      rw [List.find?_cons, List.find?_cons, ha]
      cases hpa : p2 a
      · exact ih (fun b hb => h b (List.mem_cons_of_mem a hb))
      · rfl

/-- `find(query)` allocates only fresh cells: the cells of the incoming
heap survive unchanged, and every returned reference lies beyond them. -/
theorem findQueryH_fresh (q : Doc) :
    ∀ (h : Heap) (refs : List Nat),
      h.cells.length ≤ (findQueryH h refs q).fst.cells.length ∧
      (∀ i, i < h.cells.length →
        (findQueryH h refs q).fst.cells[i]? = h.cells[i]?) ∧
      (∀ r2 ∈ (findQueryH h refs q).snd, h.cells.length ≤ r2)
  | h, [] => by simp [findQueryH]
  | h, r :: rest => by
      obtain ⟨ih1, ih2, ih3⟩ := findQueryH_fresh q (alloc h (readDoc h r)).fst rest
      obtain ⟨jh1, jh2, jh3⟩ := findQueryH_fresh q h rest
      by_cases hm : matchesQuery q (readDoc h r) = true
      · have hunf : findQueryH h (r :: rest) q =
            ((findQueryH (alloc h (readDoc h r)).fst rest q).fst,
             (alloc h (readDoc h r)).snd ::
               (findQueryH (alloc h (readDoc h r)).fst rest q).snd) := by
          simp [findQueryH, hm]
        rw [hunf]
        have hlen : (alloc h (readDoc h r)).fst.cells.length =
            h.cells.length + 1 := by simp [alloc]
        refine ⟨?_, ?_, ?_⟩
        · show h.cells.length ≤
            (findQueryH (alloc h (readDoc h r)).fst rest q).fst.cells.length
          omega
        · intro i hi
          show (findQueryH (alloc h (readDoc h r)).fst rest q).fst.cells[i]? =
            h.cells[i]?
          rw [ih2 i (by omega)]
          simp [alloc, List.getElem?_append_left hi]
        · intro r2 hr2
          have hr2b : r2 ∈ (alloc h (readDoc h r)).snd ::
              (findQueryH (alloc h (readDoc h r)).fst rest q).snd := hr2
          rcases List.mem_cons.mp hr2b with he | he
          · simp [alloc] at he
            omega
          · have := ih3 r2 he
            omega
      · have hunf : findQueryH h (r :: rest) q = findQueryH h rest q := by
          simp [findQueryH, hm]
        rw [hunf]
        exact ⟨jh1, jh2, jh3⟩

/-- `find_one` on a hit allocates the copy and hands back its reference. -/
theorem findOneH_eq_some (h : Heap) (refs : List Nat) (q : Doc) (r : Nat)
    (hfr : findOneRef h refs q = some r) :
    findOneH h refs q =
      ((alloc h (readDoc h r)).fst, some (alloc h (readDoc h r)).snd) := by
  simp [findOneH, hfr]

/-- `find_one` on a miss touches nothing. -/
theorem findOneH_eq_none (h : Heap) (refs : List Nat) (q : Doc)
    (hfr : findOneRef h refs q = none) : findOneH h refs q = (h, none) := by
  simp [findOneH, hfr]

/-- C3 counterexample: a collection holding the single document
`{"x": 1}` (cell 0).  `find` with no query returns the stored reference
itself (`self.data.copy()` copies only the list), so setting `"x" = 2`
through it changes the collection: `find_one({"x": 1})`, which found the
document before the mutation, now finds nothing. -/
theorem c3_unfiltered_find_aliases_storage :
    findAllH [0] = [0] ∧
    findOneRef { cells := [[("x", Value.int 1)]] } [0] [("x", Value.int 1)] =
      some 0 ∧
    findOneRef (hset { cells := [[("x", Value.int 1)]] } 0 "x" (Value.int 2))
      [0] [("x", Value.int 1)] = none := by
  refine ⟨rfl, rfl, rfl⟩

/-- C3 amended: `find_one` and `find` *with a query* return copies —
mutating a field of a returned document leaves every stored document,
and hence any later `find_one` result, unchanged; but `find` with no
query returns the stored documents themselves (see the counterexample),
so only those two read paths are copy-isolated. -/
theorem c3_reads_are_copies_except_unfiltered_find (h : Heap)
    (refs : List Nat) (q q2 : Doc) (k : String) (v : Value)
    (hvalid : ∀ r ∈ refs, r < h.cells.length) :
    (∀ r0, (findOneH h refs q).snd = some r0 →
      (∀ r ∈ refs,
        readDoc (hset (findOneH h refs q).fst r0 k v) r = readDoc h r) ∧
      findOneRef (hset (findOneH h refs q).fst r0 k v) refs q2 =
        findOneRef h refs q2) ∧
    (∀ r2 ∈ (findQueryH h refs q).snd,
      (∀ r ∈ refs,
        readDoc (hset (findQueryH h refs q).fst r2 k v) r = readDoc h r) ∧
      findOneRef (hset (findQueryH h refs q).fst r2 k v) refs q2 =
        findOneRef h refs q2) := by
  constructor
  · intro r0 hfound
    cases hfr : findOneRef h refs q with
    | none =>
        rw [findOneH_eq_none h refs q hfr] at hfound
        cases hfound
    | some r =>
        have hr0 : r0 = h.cells.length := by
          rw [findOneH_eq_some h refs q r hfr] at hfound
          have : (alloc h (readDoc h r)).snd = r0 := Option.some.inj hfound
          simpa [alloc] using this.symm
        rw [findOneH_eq_some h refs q r hfr]
        have hread : ∀ r2 ∈ refs,
            readDoc (hset (alloc h (readDoc h r)).fst r0 k v) r2 =
              readDoc h r2 := by
          intro r2 hmem
          have hlt := hvalid r2 hmem
          rw [readDoc_hset_ne _ _ _ _ _ (by omega : r0 ≠ r2)]
          exact readDoc_alloc h _ r2 hlt
        refine ⟨hread, ?_⟩
        simp only [findOneRef]
        exact find?_congr_mem _ _ _ (fun r2 hmem => by rw [hread r2 hmem])
  · intro r2 hr2
    obtain ⟨hf1, hf2, hf3⟩ := findQueryH_fresh q h refs
    have hge := hf3 r2 hr2
    have hread : ∀ r ∈ refs,
        readDoc (hset (findQueryH h refs q).fst r2 k v) r = readDoc h r := by
      intro r hr
      have hlt := hvalid r hr
      rw [readDoc_hset_ne _ _ _ _ _ (by omega : r2 ≠ r)]
      simp [readDoc, hf2 r hlt]
    refine ⟨hread, ?_⟩
    simp only [findOneRef]
    exact find?_congr_mem _ _ _ (fun r hr => by rw [hread r hr])

/-- C3 witness: on the one-document heap, `find_one({"x": 1})` returns a
fresh copy (cell 1); setting `"x" = 2` through the copy leaves the
stored document and later `find_one` outcomes unchanged, and likewise
for every reference `find({"x": 1})` returns. -/
theorem c3_witness :
    (∀ r0, (findOneH { cells := [[("x", Value.int 1)]] } [0]
        [("x", Value.int 1)]).snd = some r0 →
      (∀ r ∈ [0],
        readDoc (hset (findOneH { cells := [[("x", Value.int 1)]] } [0]
          [("x", Value.int 1)]).fst r0 "x" (Value.int 2)) r =
          readDoc { cells := [[("x", Value.int 1)]] } r) ∧
      findOneRef (hset (findOneH { cells := [[("x", Value.int 1)]] } [0]
          [("x", Value.int 1)]).fst r0 "x" (Value.int 2)) [0]
          [("x", Value.int 1)] =
        findOneRef { cells := [[("x", Value.int 1)]] } [0]
          [("x", Value.int 1)]) ∧
    (∀ r2 ∈ (findQueryH { cells := [[("x", Value.int 1)]] } [0]
        [("x", Value.int 1)]).snd,
      (∀ r ∈ [0],
        readDoc (hset (findQueryH { cells := [[("x", Value.int 1)]] } [0]
          [("x", Value.int 1)]).fst r2 "x" (Value.int 2)) r =
          readDoc { cells := [[("x", Value.int 1)]] } r) ∧
      findOneRef (hset (findQueryH { cells := [[("x", Value.int 1)]] } [0]
          [("x", Value.int 1)]).fst r2 "x" (Value.int 2)) [0]
          [("x", Value.int 1)] =
        findOneRef { cells := [[("x", Value.int 1)]] } [0]
          [("x", Value.int 1)]) :=
  c3_reads_are_copies_except_unfiltered_find { cells := [[("x", Value.int 1)]] }
    [0] [("x", Value.int 1)] [("x", Value.int 1)] "x" (Value.int 2) (by decide)

/-- An upsert call always fires at least one durability flush: one when a
match was updated in place, two when a new document was inserted. -/
theorem update_one_upsert_flushes (st : CollState) (q : Doc) (u : UpdateArg)
    (ts : String) (now : Nat) :
    st.flushes + 1 ≤ (update_one st q u true ts now).flushes := by
  cases hf : updateFirst st.docs q u ts with
  | some ds =>
      rw [update_one_of_updateFirst_some _ _ _ _ _ _ _ hf]
  | none =>
      simp [update_one, hf, insert_one]

/-- C9 counterexample: saving a plan while the JSON file write fails leaves
error lines in the log, yet `save_plan` still returns `True` — the
failure is not converted into a boolean-false (or empty) result for the
caller, contrary to the claim. -/
theorem c9_io_failure_still_reports_success :
    (save_plan { docs := [], flushes := 0 } [("date", Value.str "2024-01-01")]
      true "T" 5).result = true ∧
    (save_plan { docs := [], flushes := 0 } [("date", Value.str "2024-01-01")]
      true "T" 5).ioErrorLog ≠ [] := by
  constructor
  · rfl
  · decide

/-- C9 amended: a file-write failure during the durability flush is caught
and logged *inside* `_save_data` and never propagates — `save_plan` is a
total function of its inputs — but it is not surfaced either: the store
operation still returns `True` to its caller, which therefore cannot
detect the failure. -/
theorem c9_flush_failure_logged_not_surfaced (st : CollState) (plan : Doc)
    (ts : String) (now : Nat) :
    (save_plan st plan true ts now).result = true ∧
    (save_plan st plan true ts now).ioErrorLog ≠ [] := by
  refine ⟨rfl, ?_⟩
  apply List.ne_nil_of_mem (a := "Could not save fallback storage")
  show _ ∈ (List.range _).flatMap _
  rw [List.mem_flatMap]
  refine ⟨0, ?_, by simp [saveData, saveDataRaw]⟩
  rw [List.mem_range]
  have h2 := update_one_upsert_flushes st
    [("_id", dget (planDoc plan ts) "_id")]
    (UpdateArg.set (planDoc plan ts)) ts now
  omega

end DayPlanner
